import Mathlib

/-
Verification of the NFC reader scan lifecycle against its specification.

The development is a shallow embedding of src/screens/NFCReaderScreen.tsx.
The component state (isScanning, nfcSupported, cardData, error), the pure
helpers (parseCardData, maskCardNumber) and the event handlers
(checkNfcSupport, startScan, cancelScan) are translated into Lean
definitions; the asynchronous hardware layer (react-native-nfc-manager) is
modelled by environment events carrying the outcome of each awaited call.
-/

/-- JS String.prototype.slice(-4): the last (min 4 s.length) characters of s.
For strings shorter than four characters, slice(-4) returns the whole
string, which Nat subtraction (truncating at 0) models exactly. -/
def sliceLast4 (s : String) : String :=
  String.mk (s.data.drop (s.data.length - 4))

/-- maskCardNumber, lines 179-183. The argument is `string | undefined` in
the source; JS `!id` is true both for undefined (none) and for "". -/
def maskCardNumber (id : Option String) : String :=
  match id with
  | none => "****"
  | some s => if s = "" then "****" else "**** **** **** " ++ sliceLast4 s

/-- TagEvent as consumed by parseCardData: each field may be absent. -/
structure TagEvent where
  id : Option String
  techTypes : Option (List String)
  type : Option String
deriving DecidableEq

/-- CardData, lines 32-38. -/
structure CardData where
  id : String
  techTypes : List String
  type : String
  cardNumber : String
  scannedAt : String
deriving DecidableEq

/-- JS `x || d` where x is `string | undefined`: the empty string is falsy,
so both undefined and "" fall through to the default. -/
def jsOrStr (x : Option String) (d : String) : String :=
  match x with
  | none => d
  | some s => if s = "" then d else s

/-- parseCardData, lines 162-174. The clock read
`new Date().toLocaleString()` is passed in as `now`, making the embedded
function pure; totality of this definition embeds the fact that the source
function cannot throw. `tag.techTypes || []` uses getD because a JS array
(even an empty one) is truthy, so only undefined falls through. -/
def parseCardData (tag : TagEvent) (now : String) : CardData :=
  { id := jsOrStr tag.id "N/A"
  , techTypes := tag.techTypes.getD []
  , type := jsOrStr tag.type "Unknown"
  , cardNumber := maskCardNumber tag.id
  , scannedAt := now }

/-- The four useState hooks of the component, lines 54-57. -/
structure ScreenState where
  isScanning : Bool
  nfcSupported : Bool
  cardData : Option CardData
  error : Option String
deriving DecidableEq

/-- Initial hook values: isScanning false, nfcSupported TRUE (optimistic),
cardData null, error null. -/
def initialState : ScreenState :=
  { isScanning := false, nfcSupported := true, cardData := none, error := none }

/-- Outcome of the checkNfcSupport handler, lines 76-94: the probe resolves
true and NfcManager.start succeeds (supported); resolves false
(notSupported); the probe itself rejects (probeFails); or the probe resolves
true and NfcManager.start rejects (initFails). The last three all land in
setNfcSupported(false) (either the else branch or the catch). -/
inductive ProbeOutcome where
  | supported
  | notSupported
  | probeFails
  | initFails
deriving DecidableEq

/-- How the awaited hardware calls inside startScan settle once scanning:
requestTechnology resolves and getTag returns a tag; requestTechnology
resolves and getTag returns null; or one of the two awaits rejects with a
message (caught at line 140). `now` is the clock value read at parse time. -/
inductive ScanOutcome where
  | tagFound (tag : TagEvent) (now : String)
  | tagNull
  | hwError (msg : String)
deriving DecidableEq

/-- Lines 111-124 of startScan, up to the suspension point at
requestTechnology. Returns the updated state and whether requestTechnology
was called (true unless the nfcSupported guard returned early). Note the
guard checks nfcSupported only: there is no isScanning guard. -/
def startScanBegin (st : ScreenState) : ScreenState × Bool :=
  if st.nfcSupported then
    ({ st with isScanning := true, error := none, cardData := none }, true)
  else (st, false)

/-- Lines 127-152 of startScan: the continuation once the awaited hardware
calls settle. tagFound runs the if-branch (parse, setCardData); tagNull
skips it silently; hwError runs the catch (setError). The finally block
then runs setIsScanning(false); its cleanUpNfc release call is accounted in
the system step. -/
def startScanFinish (st : ScreenState) (o : ScanOutcome) : ScreenState :=
  match o with
  | .tagFound tag now =>
      { st with cardData := some (parseCardData tag now), isScanning := false }
  | .tagNull => { st with isScanning := false }
  | .hwError msg => { st with error := some msg, isScanning := false }

/-- The rejection message delivered to the pending requestTechnology await
when cancelTechnologyRequest aborts it. Aborting the outstanding wait must
settle the promise (an await can only resume on fulfillment or rejection,
and an abort cannot fulfil with a technology), so the hardware layer
rejects the pending request; the exact message text is irrelevant to every
theorem below. -/
def cancelErrMsg : String := "cancelled"

/-- Commands and hardware callbacks the running component can observe:
a press of the rendered Start button, a press of the rendered Cancel
button, or the outstanding scan await settling. -/
inductive Cmd where
  | pressStart
  | pressCancel
  | waitResolves (o : ScanOutcome)
deriving DecidableEq

/-- A top-level event: the support probe resolving, or a command. -/
inductive Event where
  | probe (o : ProbeOutcome)
  | cmd (c : Cmd)
deriving DecidableEq

/-- Whole-system view: the component state plus the hardware-side
bookkeeping used to phrase the claims - whether the exclusive technology
request is currently outstanding (held), and how many acquisition
(requestTechnology) and release (cancelTechnologyRequest) calls happened. -/
structure Sys where
  st : ScreenState
  held : Bool
  acquires : Nat
  releases : Nat
deriving DecidableEq

def initSys : Sys :=
  { st := initialState, held := false, acquires := 0, releases := 0 }

/-- checkNfcSupport resolving, lines 78-93: only the supported outcome
leaves nfcSupported true; false, probe rejection and init rejection all set
it false. -/
def probeStep (sys : Sys) (o : ProbeOutcome) : Sys :=
  match o with
  | .supported => { sys with st := { sys.st with nfcSupported := true } }
  | _ => { sys with st := { sys.st with nfcSupported := false } }

/-- The Start button is rendered iff the main view shows (nfcSupported,
line 194) and the non-scanning branch of the conditional renders (line
214). -/
def startRendered (st : ScreenState) : Bool :=
  st.nfcSupported && !st.isScanning

/-- The Cancel button is rendered iff the main view shows and the scanning
branch renders (lines 214-225). -/
def cancelRendered (st : ScreenState) : Bool :=
  st.nfcSupported && st.isScanning

/-- One command processed to quiescence. pressStart runs startScan up to
the requestTechnology suspension. pressCancel runs cancelScan (stop
scanning, one release) and then the aborted request rejects, resuming
startScan at the catch (setError) and finally (stop scanning, a second
release). waitResolves runs the startScan continuation and its finally
release. Button presses are possible only while the button is rendered. -/
def cmdStep (sys : Sys) (c : Cmd) : Sys :=
  match c with
  | .pressStart =>
      if startRendered sys.st then
        let r := startScanBegin sys.st
        if r.2 then
          { sys with st := r.1, held := true, acquires := sys.acquires + 1 }
        else { sys with st := r.1 }
      else sys
  | .pressCancel =>
      if cancelRendered sys.st then
        { sys with
            st := startScanFinish { sys.st with isScanning := false }
                    (.hwError cancelErrMsg)
          , held := false
          , releases := sys.releases + 2 }
      else sys
  | .waitResolves o =>
      if sys.st.isScanning then
        { sys with
            st := startScanFinish sys.st o
          , held := false
          , releases := sys.releases + 1 }
      else sys

def step (sys : Sys) (e : Event) : Sys :=
  match e with
  | .probe o => probeStep sys o
  | .cmd c => cmdStep sys c

/-- A run of the component: events processed in order from the mount
state. -/
def run (evs : List Event) : Sys :=
  evs.foldl step initSys

/-- Modelled from the spec: the ScanState phases of section 3. The
Uninitialized phase is omitted because its only transition (created ->
CheckingSupport, running the Support Detector) is already taken when the
component mounts, which is where every run below begins. -/
inductive Phase where
  | CheckingSupport
  | Unsupported
  | Idle
  | Scanning
  | Success
  | Failed
deriving DecidableEq

/-- Modelled from the spec: the state machine table of section 4.2, read
over the event alphabet of the embedding. The row "hardware error / no tag
within attempt -> Failed" covers both hwError and tagNull; cancel from
Scanning goes to Idle. Events with no row leave the phase unchanged. -/
def specStep (ph : Phase) (e : Event) : Phase :=
  match ph, e with
  | .CheckingSupport, .probe .supported => .Idle
  | .CheckingSupport, .probe _ => .Unsupported
  | .Idle, .cmd .pressStart => .Scanning
  | .Success, .cmd .pressStart => .Scanning
  | .Failed, .cmd .pressStart => .Scanning
  | .Scanning, .cmd .pressCancel => .Idle
  | .Scanning, .cmd (.waitResolves (.tagFound _ _)) => .Success
  | .Scanning, .cmd (.waitResolves (.hwError _)) => .Failed
  | .Scanning, .cmd (.waitResolves .tagNull) => .Failed
  | _, _ => ph

def specRun (evs : List Event) : Phase :=
  evs.foldl specStep .CheckingSupport

/-- The spec machine of section 4.2 amended at the two exits the code
implements differently: cancel from Scanning lands in Failed (the aborted
wait rejects into the generic catch, which records the cancellation as the
error), and a null tag from Scanning lands silently in Idle. -/
def specStepAsImplemented (ph : Phase) (e : Event) : Phase :=
  match ph, e with
  | .CheckingSupport, .probe .supported => .Idle
  | .CheckingSupport, .probe _ => .Unsupported
  | .Idle, .cmd .pressStart => .Scanning
  | .Success, .cmd .pressStart => .Scanning
  | .Failed, .cmd .pressStart => .Scanning
  | .Scanning, .cmd .pressCancel => .Failed
  | .Scanning, .cmd (.waitResolves (.tagFound _ _)) => .Success
  | .Scanning, .cmd (.waitResolves (.hwError _)) => .Failed
  | .Scanning, .cmd (.waitResolves .tagNull) => .Idle
  | _, _ => ph

def specRunAsImplemented (evs : List Event) : Phase :=
  evs.foldl specStepAsImplemented .CheckingSupport

/-- The phase of section 3 as projected from the component state. -/
def phaseOf (sys : Sys) : Phase :=
  if sys.st.nfcSupported = false then .Unsupported
  else if sys.st.isScanning then .Scanning
  else if sys.st.error.isSome then .Failed
  else if sys.st.cardData.isSome then .Success
  else .Idle

/- Helper lemmas shared by the claim theorems. -/

theorem foldl_step_inv (P : Sys → Prop)
    (hstep : ∀ sys e, P sys → P (step sys e)) :
    ∀ (evs : List Event) (sys : Sys), P sys → P (evs.foldl step sys) := by
  intro evs
  induction evs with
  | nil => intro sys h; exact h
  | cons e rest ih => intro sys h; exact ih (step sys e) (hstep sys e h)

/-- held tracks isScanning across every single step. -/
theorem step_held (sys : Sys) (e : Event)
    (h : sys.held = sys.st.isScanning) :
    (step sys e).held = (step sys e).st.isScanning := by
  cases e with
  | probe o =>
      cases o <;> simpa [step, probeStep] using h
  | cmd c =>
      cases c with
      | pressStart =>
          by_cases hr : startRendered sys.st
          · have hsup : sys.st.nfcSupported = true := by
              simp [startRendered, Bool.and_eq_true] at hr
              exact hr.1
            simp [step, cmdStep, hr, startScanBegin, hsup]
          · simp [step, cmdStep, hr, h]
      | pressCancel =>
          by_cases hr : cancelRendered sys.st
          · simp [step, cmdStep, hr, startScanFinish]
          · simp [step, cmdStep, hr, h]
      | waitResolves o =>
          by_cases hs : sys.st.isScanning
          · cases o <;> simp [step, cmdStep, hs, startScanFinish]
          · simp [step, cmdStep, hs, h]

/-- While scanning, error and cardData are both null: startScan cleared
them before requesting the technology, and every handler that could set
them also ends the scanning state in the same step. -/
theorem step_scanClear (sys : Sys) (e : Event)
    (h : sys.st.isScanning = true →
      sys.st.error = none ∧ sys.st.cardData = none) :
    (step sys e).st.isScanning = true →
      (step sys e).st.error = none ∧ (step sys e).st.cardData = none := by
  cases e with
  | probe o =>
      cases o <;> simpa [step, probeStep] using h
  | cmd c =>
      cases c with
      | pressStart =>
          by_cases hr : startRendered sys.st
          · have hsup : sys.st.nfcSupported = true := by
              simp [startRendered, Bool.and_eq_true] at hr
              exact hr.1
            simp [step, cmdStep, hr, startScanBegin, hsup]
          · simpa [step, cmdStep, hr] using h
      | pressCancel =>
          by_cases hr : cancelRendered sys.st
          · simp [step, cmdStep, hr, startScanFinish]
          · simpa [step, cmdStep, hr] using h
      | waitResolves o =>
          by_cases hs : sys.st.isScanning
          · cases o <;> simp [step, cmdStep, hs, startScanFinish]
          · rw [show step sys (.cmd (.waitResolves o)) = sys by
              simp [step, cmdStep, hs]]
            exact h

/-- Reachable scanning states carry no error and no cardData. -/
theorem run_scanClear (evs : List Event) :
    (run evs).st.isScanning = true →
      (run evs).st.error = none ∧ (run evs).st.cardData = none := by
  have h := foldl_step_inv
    (fun sys => sys.st.isScanning = true →
      sys.st.error = none ∧ sys.st.cardData = none)
    step_scanClear evs initSys (by intro h; cases h)
  exact h

/-- No command handler touches nfcSupported; only the probe does. -/
theorem cmdStep_nfcSupported (sys : Sys) (c : Cmd) :
    (cmdStep sys c).st.nfcSupported = sys.st.nfcSupported := by
  cases c with
  | pressStart =>
      by_cases hr : startRendered sys.st
      · have hsup : sys.st.nfcSupported = true := by
          simp [startRendered, Bool.and_eq_true] at hr
          exact hr.1
        simp [cmdStep, hr, startScanBegin, hsup]
      · simp [cmdStep, hr]
  | pressCancel =>
      by_cases hr : cancelRendered sys.st
      · simp [cmdStep, hr, startScanFinish]
      · simp [cmdStep, hr]
  | waitResolves o =>
      by_cases hs : sys.st.isScanning
      · cases o <;> simp [cmdStep, hs, startScanFinish]
      · simp [cmdStep, hs]

theorem cmds_nfcSupported (cs : List Cmd) :
    ∀ sys : Sys,
      ((cs.map Event.cmd).foldl step sys).st.nfcSupported
        = sys.st.nfcSupported := by
  induction cs with
  | nil => intro sys; rfl
  | cons c rest ih =>
      intro sys
      simpa [List.foldl_cons, step] using
        (ih (cmdStep sys c)).trans (cmdStep_nfcSupported sys c)

/-- Once nfcSupported is false and no scan is in flight, every command is a
no-op: the Start and Cancel buttons are not rendered (the unsupported view
shows) and no await is outstanding. -/
theorem cmdStep_noop_unsupported (sys : Sys) (c : Cmd)
    (hsup : sys.st.nfcSupported = false)
    (hscan : sys.st.isScanning = false) :
    cmdStep sys c = sys := by
  cases c with
  | pressStart => simp [cmdStep, startRendered, hsup]
  | pressCancel => simp [cmdStep, cancelRendered, hsup]
  | waitResolves o => simp [cmdStep, hscan]

theorem cmds_noop_unsupported (cs : List Cmd) :
    ∀ sys : Sys, sys.st.nfcSupported = false → sys.st.isScanning = false →
      (cs.map Event.cmd).foldl step sys = sys := by
  induction cs with
  | nil => intro sys _ _; rfl
  | cons c rest ih =>
      intro sys hsup hscan
      have hstep : step sys (Event.cmd c) = sys := by
        simpa [step] using cmdStep_noop_unsupported sys c hsup hscan
      simpa [List.foldl_cons, hstep] using ih sys hsup hscan

/-- One-command simulation: the code transition tracks the amended spec
machine exactly, under the reachable-state fact that scanning states carry
no error and no cardData. -/
theorem cmdStep_sim (sys : Sys) (c : Cmd)
    (hclear : sys.st.isScanning = true →
      sys.st.error = none ∧ sys.st.cardData = none) :
    specStepAsImplemented (phaseOf sys) (Event.cmd c)
      = phaseOf (cmdStep sys c) := by
  cases c with
  | pressStart =>
      by_cases hsup : sys.st.nfcSupported
      · by_cases hs : sys.st.isScanning
        · simp [phaseOf, hsup, hs, specStepAsImplemented, cmdStep,
            startRendered]
        · by_cases he : sys.st.error.isSome
          · simp [phaseOf, hsup, hs, he, specStepAsImplemented, cmdStep,
              startRendered, startScanBegin]
          · by_cases hc : sys.st.cardData.isSome
            · simp [phaseOf, hsup, hs, he, hc, specStepAsImplemented,
                cmdStep, startRendered, startScanBegin]
            · simp [phaseOf, hsup, hs, he, hc, specStepAsImplemented,
                cmdStep, startRendered, startScanBegin]
      · have hsup' : sys.st.nfcSupported = false := by
          simpa using hsup
        simp [phaseOf, hsup', specStepAsImplemented, cmdStep, startRendered]
  | pressCancel =>
      by_cases hsup : sys.st.nfcSupported
      · by_cases hs : sys.st.isScanning
        · simp [phaseOf, hsup, hs, specStepAsImplemented, cmdStep,
            cancelRendered, startScanFinish]
        · by_cases he : sys.st.error.isSome
          · simp [phaseOf, hsup, hs, he, specStepAsImplemented, cmdStep,
              cancelRendered]
          · by_cases hc : sys.st.cardData.isSome
            · simp [phaseOf, hsup, hs, he, hc, specStepAsImplemented,
                cmdStep, cancelRendered]
            · simp [phaseOf, hsup, hs, he, hc, specStepAsImplemented,
                cmdStep, cancelRendered]
      · have hsup' : sys.st.nfcSupported = false := by
          simpa using hsup
        simp [phaseOf, hsup', specStepAsImplemented, cmdStep, cancelRendered]
  | waitResolves o =>
      by_cases hs : sys.st.isScanning
      · obtain ⟨he, hc⟩ := hclear hs
        by_cases hsup : sys.st.nfcSupported
        · cases o <;>
            simp [phaseOf, hsup, hs, he, hc, specStepAsImplemented, cmdStep,
              startScanFinish]
        · have hsup' : sys.st.nfcSupported = false := by
            simpa using hsup
          cases o <;>
            simp [phaseOf, hsup', hs, specStepAsImplemented, cmdStep,
              startScanFinish]
      · by_cases hsup : sys.st.nfcSupported
        · by_cases he : sys.st.error.isSome
          · simp [phaseOf, hsup, hs, he, specStepAsImplemented, cmdStep]
          · by_cases hc : sys.st.cardData.isSome
            · simp [phaseOf, hsup, hs, he, hc, specStepAsImplemented,
                cmdStep]
            · simp [phaseOf, hsup, hs, he, hc, specStepAsImplemented,
                cmdStep]
        · have hsup' : sys.st.nfcSupported = false := by
            simpa using hsup
          simp [phaseOf, hsup', specStepAsImplemented, cmdStep, hs]

/-- Run-level simulation against the amended spec machine. -/
theorem cmds_sim (cs : List Cmd) :
    ∀ sys : Sys,
      (sys.st.isScanning = true →
        sys.st.error = none ∧ sys.st.cardData = none) →
      (cs.map Event.cmd).foldl specStepAsImplemented (phaseOf sys)
        = phaseOf ((cs.map Event.cmd).foldl step sys) := by
  induction cs with
  | nil => intro sys _; rfl
  | cons c rest ih =>
      intro sys hclear
      have hhead : specStepAsImplemented (phaseOf sys) (Event.cmd c)
          = phaseOf (cmdStep sys c) := cmdStep_sim sys c hclear
      have htail := ih (cmdStep sys c) (step_scanClear sys (Event.cmd c) hclear)
      simpa [List.foldl_cons, step, hhead] using htail

/-- A Failed projection forces a non-null error. -/
theorem phaseOf_failed (sys : Sys) (h : phaseOf sys = Phase.Failed) :
    sys.st.error.isSome = true := by
  by_cases hsup : sys.st.nfcSupported = false
  · simp [phaseOf, hsup] at h
  · by_cases hs : sys.st.isScanning
    · simp [phaseOf, hsup, hs] at h
    · by_cases he : sys.st.error.isSome
      · exact he
      · by_cases hc : sys.st.cardData.isSome <;>
          simp [phaseOf, hsup, hs, he, hc] at h

/- Claim theorems. -/

/-- Claim C1: for every sequence of start and cancel commands and every
outcome of a scanning attempt (tag arrival, null tag, hardware error, or
cancellation), the exclusive technology request is outstanding if and only
if the controller is in the Scanning state. In the model held can only
drop to false together with a counted release call (cmdStep), so every
attempt that enters Scanning performs a release on each exit path and
access is never held in a non-Scanning state. -/
theorem held_iff_scanning (evs : List Event) :
    (run evs).held = (run evs).st.isScanning :=
  foldl_step_inv (fun sys => sys.held = sys.st.isScanning) step_held
    evs initSys rfl

/-- Claim C2, counterexample: the claim says an identifier with fewer than
four characters is replaced by "****" with no partial leakage, but
maskCardNumber applies slice(-4) to any non-empty identifier, so the
two-character identifier "AB" is leaked in full. -/
theorem maskCardNumber_short_id_leaks :
    maskCardNumber (some "AB") = "**** **** **** AB" ∧
      maskCardNumber (some "AB") ≠ "****" := by
  constructor <;> decide

/-- Claim C2, amended: an absent or empty identifier masks to "****"; any
non-empty identifier (even one shorter than four characters) masks to the
fixed prefix followed by its last (min 4 length) characters, a suffix of
the identifier - so identifiers of length one to three are partially
leaked. -/
theorem maskCardNumber_amended :
    maskCardNumber none = "****" ∧ maskCardNumber (some "") = "****" ∧
      ∀ s : String, s ≠ "" →
        ∃ t : String,
          maskCardNumber (some s) = "**** **** **** " ++ t ∧
            t.length = min 4 s.length ∧ t.data <:+ s.data := by
  refine ⟨by decide, by decide, ?_⟩
  intro s hs
  refine ⟨sliceLast4 s, by simp [maskCardNumber, hs], ?_, ?_⟩
  · show (s.data.drop (s.data.length - 4)).length = min 4 s.length
    rw [List.length_drop]
    have : s.length = s.data.length := rfl
    omega
  · exact List.drop_suffix _ _

/-- Witness for the amended claim C2 at the concrete identifier "AB". -/
theorem maskCardNumber_amended_witness :
    ("AB" : String) ≠ "" ∧
      ∃ t : String,
        maskCardNumber (some "AB") = "**** **** **** " ++ t ∧
          t.length = min 4 ("AB" : String).length ∧
          t.data <:+ ("AB" : String).data :=
  ⟨by decide, maskCardNumber_amended.2.2 "AB" (by decide)⟩

/-- Claim C3, counterexample: cancelling during Scanning does not leave a
cleared error and exactly one release call. The aborted technology request
rejects into the generic catch of startScan, which records the
cancellation message as the error, and the release call runs twice (once
in cancelScan, once in the finally block of startScan). -/
theorem cancel_not_clean_counterexample :
    (run [Event.cmd .pressStart, Event.cmd .pressCancel]).st.error
        ≠ none ∧
      (run [Event.cmd .pressStart, Event.cmd .pressCancel]).releases
        = 2 := by
  constructor <;> decide

/-- Claim C3, amended: a cancel command issued at any point during
Scanning stops the scan and frees the radio, but the error field ends up
set to the cancellation message (not cleared) and two release calls are
made for the attempt (the second a harmless no-op at the hardware). -/
theorem cancel_during_scanning_amended (evs : List Event)
    (hscan : (run evs).st.isScanning = true)
    (hsup : (run evs).st.nfcSupported = true) :
    (run (evs ++ [Event.cmd .pressCancel])).st.isScanning = false ∧
      (run (evs ++ [Event.cmd .pressCancel])).held = false ∧
      (run (evs ++ [Event.cmd .pressCancel])).st.error = some cancelErrMsg ∧
      (run (evs ++ [Event.cmd .pressCancel])).releases
        = (run evs).releases + 2 := by
  have hr : run (evs ++ [Event.cmd .pressCancel])
      = cmdStep (run evs) .pressCancel := by
    simp [run, List.foldl_append, step]
  have hc : cancelRendered (run evs).st = true := by
    simp [cancelRendered, hscan, hsup]
  rw [hr]
  simp [cmdStep, hc, startScanFinish]

/-- Witness for the amended claim C3: cancel right after start. -/
theorem cancel_during_scanning_amended_witness :
    (run [Event.cmd .pressStart]).st.isScanning = true ∧
      (run ([Event.cmd .pressStart] ++ [Event.cmd .pressCancel])).st.error
        = some cancelErrMsg :=
  ⟨by decide,
    (cancel_during_scanning_amended [Event.cmd .pressStart]
      (by decide) (by decide)).2.2.1⟩

/-- Claim C4, counterexample: the startScan body has no isScanning guard
(only the nfcSupported check, lines 112-115), so invoking it from a state
that is already Scanning does issue another requestTechnology acquisition
call. -/
theorem startScan_no_scanning_guard :
    (startScanBegin
      { isScanning := true, nfcSupported := true,
        cardData := none, error := none }).2 = true := by
  decide

/-- Claim C4, amended: a start command issued through the Presenter while
already Scanning is impossible and hence a no-op - the Start button is
rendered only when not scanning (line 214), so the command leaves the
system unchanged and never triggers a second acquisition call; the
startScan function itself, called directly, has no such guard. -/
theorem pressStart_noop_while_scanning (sys : Sys)
    (hs : sys.st.isScanning = true) :
    cmdStep sys .pressStart = sys := by
  simp [cmdStep, startRendered, hs]

/-- Witness for the amended claim C4 at the state reached by one start. -/
theorem pressStart_noop_while_scanning_witness :
    (run [Event.cmd .pressStart]).st.isScanning = true ∧
      cmdStep (run [Event.cmd .pressStart]) .pressStart
        = run [Event.cmd .pressStart] :=
  ⟨by decide,
    pressStart_noop_while_scanning (run [Event.cmd .pressStart]) (by decide)⟩

/-- Claim C5: the embedded parseCardData is a total pure function (the
clock is an explicit argument), so it cannot throw; on the record with
every field absent it returns the documented defaults instead of an
error. -/
theorem parseCardData_total_defaults (now : String) :
    parseCardData { id := none, techTypes := none, type := none } now
      = { id := "N/A", techTypes := [], type := "Unknown",
          cardNumber := "****", scannedAt := now } := rfl

/-- Claim C6, counterexample: after start followed by cancel the spec
machine of section 4.2 is back in Idle, yet the error field is non-null
(the cancellation rejection went through the generic catch), refuting
"error is non-null iff the phase is Failed". -/
theorem error_iff_failed_counterexample :
    ¬ (((run [Event.probe .supported, Event.cmd .pressStart,
          Event.cmd .pressCancel]).st.error.isSome = true)
        ↔ specRun [Event.probe .supported, Event.cmd .pressStart,
            Event.cmd .pressCancel] = Phase.Failed) := by
  decide

/-- Claim C6, amended: in every state reached by the probe resolving
followed by any command sequence, the error field is non-null iff the spec
machine amended at the two divergent exits (cancel from Scanning records
the cancellation as a failure; a null tag returns silently to Idle) is in
Failed. -/
theorem error_iff_failed_amended (o : ProbeOutcome) (cs : List Cmd) :
    ((run (Event.probe o :: cs.map Event.cmd)).st.error.isSome = true)
      ↔ specRunAsImplemented (Event.probe o :: cs.map Event.cmd)
          = Phase.Failed := by
  have hrun : run (Event.probe o :: cs.map Event.cmd)
      = (cs.map Event.cmd).foldl step (probeStep initSys o) := rfl
  have hspec : specRunAsImplemented (Event.probe o :: cs.map Event.cmd)
      = (cs.map Event.cmd).foldl specStepAsImplemented
          (specStepAsImplemented Phase.CheckingSupport (Event.probe o)) := rfl
  have hbase : specStepAsImplemented Phase.CheckingSupport (Event.probe o)
      = phaseOf (probeStep initSys o) := by
    cases o <;> rfl
  have hclear : (probeStep initSys o).st.isScanning = true →
      (probeStep initSys o).st.error = none ∧
        (probeStep initSys o).st.cardData = none := by
    cases o <;> decide
  have hsim := cmds_sim cs (probeStep initSys o) hclear
  rw [hspec, hbase, hsim, ← hrun]
  constructor
  · intro he
    cases o with
    | supported =>
        have hsup : (run (Event.probe .supported :: cs.map Event.cmd)).st.nfcSupported
            = true := by
          rw [hrun]; exact cmds_nfcSupported cs (probeStep initSys .supported)
        have hscan : (run (Event.probe .supported :: cs.map Event.cmd)).st.isScanning
            = false := by
          by_cases h : (run (Event.probe .supported :: cs.map Event.cmd)).st.isScanning
          · exact absurd ((run_scanClear _ h).1)
              (by intro hnone; rw [hnone] at he; exact Bool.noConfusion he)
          · simpa using h
        simp [phaseOf, hsup, hscan, he]
    | notSupported =>
        rw [hrun, cmds_noop_unsupported cs _ rfl rfl] at he
        exact absurd he (by decide)
    | probeFails =>
        rw [hrun, cmds_noop_unsupported cs _ rfl rfl] at he
        exact absurd he (by decide)
    | initFails =>
        rw [hrun, cmds_noop_unsupported cs _ rfl rfl] at he
        exact absurd he (by decide)
  · exact phaseOf_failed _

/-- Claim C7, counterexample: the component initializes nfcSupported to
true, so a start command issued before the capability probe resolves does
trigger an acquisition call even on a device whose probe then returns
false - refuting "no acquisition call is ever attempted for the lifetime
of that controller instance". -/
theorem acquire_before_probe_counterexample :
    (run [Event.cmd .pressStart, Event.probe .notSupported]).acquires
        = 1 ∧
      (run [Event.cmd .pressStart,
        Event.probe .notSupported]).st.nfcSupported = false := by
  constructor <;> decide

/-- Claim C7, amended: once the probe has resolved to false, or the probe
or the hardware initialization failed, the controller is in the terminal
unsupported state and no acquisition call is made from that point on, for
any subsequent command sequence; only a start issued before the probe
resolves can acquire. -/
theorem no_acquire_after_failed_probe (o : ProbeOutcome) (cs : List Cmd)
    (ho : o ≠ ProbeOutcome.supported) :
    (run (Event.probe o :: cs.map Event.cmd)).acquires = 0 ∧
      (run (Event.probe o :: cs.map Event.cmd)).st.nfcSupported = false := by
  have hbase : run (Event.probe o :: cs.map Event.cmd)
      = (cs.map Event.cmd).foldl step (probeStep initSys o) := rfl
  have hsys : (probeStep initSys o).st.nfcSupported = false ∧
      (probeStep initSys o).st.isScanning = false ∧
        (probeStep initSys o).acquires = 0 := by
    cases o with
    | supported => exact absurd rfl ho
    | notSupported => decide
    | probeFails => decide
    | initFails => decide
  rw [hbase, cmds_noop_unsupported cs _ hsys.1 hsys.2.1]
  exact ⟨hsys.2.2, hsys.1⟩

/-- Witness for the amended claim C7: probe returns false, then a start is
pressed; no acquisition happens. -/
theorem no_acquire_after_failed_probe_witness :
    ProbeOutcome.notSupported ≠ ProbeOutcome.supported ∧
      (run (Event.probe .notSupported
        :: [Cmd.pressStart].map Event.cmd)).acquires = 0 :=
  ⟨by decide,
    (no_acquire_after_failed_probe .notSupported [Cmd.pressStart]
      (by decide)).1⟩

/-- Claim C8: parsing the record with identifier "04A1B2C3", no
technologies and type "ISO14443" yields exactly the CardSummary the spec
scenario lists. -/
theorem parseCardData_scenario (now : String) :
    parseCardData
      { id := some "04A1B2C3", techTypes := none, type := some "ISO14443" }
      now
      = { id := "04A1B2C3", techTypes := [], type := "ISO14443",
          cardNumber := "**** **** **** B2C3", scannedAt := now } := rfl

/-- Claim C9, counterexample: the parser copies the hardware technology
list verbatim, so a raw record whose list holds a duplicate produces a
CardSummary whose technologies list is not duplicate-free. -/
theorem techTypes_duplicates_counterexample :
    ¬ (parseCardData
        { id := none, techTypes := some ["IsoDep", "IsoDep"], type := none }
        "now").techTypes.Nodup := by
  decide

/-- Claim C9, amended: the technologies list is exactly the list the
hardware supplied (order and multiplicity preserved, no deduplication), so
it is duplicate-free precisely when the hardware list is. -/
theorem techTypes_passthrough (tag : TagEvent) (now : String)
    (l : List String) (h : tag.techTypes = some l) :
    (parseCardData tag now).techTypes = l ∧
      ((parseCardData tag now).techTypes.Nodup ↔ l.Nodup) := by
  simp [parseCardData, h]

/-- Witness for the amended claim C9 at a concrete two-element list. -/
theorem techTypes_passthrough_witness :
    (({ id := none, techTypes := some ["A", "B"], type := none }
        : TagEvent).techTypes = some ["A", "B"]) ∧
      (parseCardData
        { id := none, techTypes := some ["A", "B"], type := none }
        "t").techTypes = ["A", "B"] :=
  ⟨rfl, (techTypes_passthrough _ "t" _ rfl).1⟩

/-- Claim C10: when the hardware wait resolves but getTag returns null,
the attempt ends with neither a result nor an error: scanning stops, the
release call of the finally block is still made (exactly one), and the
controller is back in the quiescent no-result no-error state - a silent
exit that is none of the three Scanning exits of the spec table. -/
theorem tagNull_silent_exit (evs : List Event)
    (hscan : (run evs).st.isScanning = true) :
    (run (evs ++ [Event.cmd (.waitResolves .tagNull)])).st.isScanning
        = false ∧
      (run (evs ++ [Event.cmd (.waitResolves .tagNull)])).st.error = none ∧
      (run (evs ++ [Event.cmd (.waitResolves .tagNull)])).st.cardData
        = none ∧
      (run (evs ++ [Event.cmd (.waitResolves .tagNull)])).held = false ∧
      (run (evs ++ [Event.cmd (.waitResolves .tagNull)])).releases
        = (run evs).releases + 1 := by
  obtain ⟨he, hc⟩ := run_scanClear evs hscan
  have hr : run (evs ++ [Event.cmd (.waitResolves .tagNull)])
      = cmdStep (run evs) (.waitResolves .tagNull) := by
    simp [run, List.foldl_append, step]
  rw [hr]
  simp [cmdStep, hscan, startScanFinish, he, hc]

/-- Witness for claim C10: a null tag right after start. -/
theorem tagNull_silent_exit_witness :
    (run [Event.cmd .pressStart]).st.isScanning = true ∧
      (run ([Event.cmd .pressStart]
        ++ [Event.cmd (.waitResolves .tagNull)])).st.error = none :=
  ⟨by decide,
    (tagNull_silent_exit [Event.cmd .pressStart] (by decide)).2.1⟩
